import Mathlib

/-!
Shallow embedding of the asset-dashboard view component
(`server/src/components/assets/AssetDashboard.tsx`) and proofs about it.

The component's core logic is:
  * an aggregator: `assetsByCompany` (a `reduce` that groups assets by
    `company_id`, skipping assets whose `company_id` is falsy — null or the
    empty string, per the guard `if (!asset.company_id)`) and
    `assetsByStatus` (a `reduce` tallying occurrences of each status);
  * an enrichment loader `loadMaintenanceSummaries`: a sequential
    `for`/`await` loop over `Object.keys(assetsByCompany)` that fetches a
    per-company maintenance summary, accumulates the results into a local
    record, and commits that record with a single `setMaintenanceSummaries`
    call after the loop; the whole loop body is inside one `try`/`catch`;
  * a totals fold `maintenanceStats` over `Object.values` of the summary
    mapping;
  * presentation helpers: the recent-assets table receives
    `assets.slice(0, 5)` and its company/location columns render with
    fallbacks `"Unassigned"` / `"Not specified"`.

JavaScript plain objects used as string-keyed records preserve key insertion
order, so a record is embedded as an association list `List (String × α)`
whose order is insertion order; `record[k] = v` is `setKey` (overwrite in
place, or append a new key at the end) and `record[k].push(a)` on the
grouping accumulator is `pushKey`.
-/

/-- The owning-company object attached to an asset; only its `company_name`
field is read by the dashboard. Modelled from the spec: the `Asset`
interface lives outside the visible sources. -/
structure Company where
  company_name : String
deriving DecidableEq, Repr

/-- An asset record. Modelled from the spec: "identifier, display name, tag,
status (one of an enumerated set of lifecycle states), optional
owning-company reference, optional location string"; the dashboard also
reads the embedded `company` object for the company-name column. Statuses
are used only as record keys, so they are embedded as strings. -/
structure Asset where
  asset_id : String
  name : String
  asset_tag : String
  status : String
  company_id : Option String
  company : Option Company
  location : Option String
deriving DecidableEq, Repr

/-- A per-company maintenance summary as consumed by the dashboard.
Modelled from the spec: "total schedule count, overdue count, upcoming
count, compliance rate". The counts are JavaScript numbers holding integral
values; the compliance rate is floating point, display-only, and never
entering the totals fold, so it is not modelled. -/
structure ClientMaintenanceSummary where
  total_schedules : Int
  overdue_maintenances : Int
  upcoming_maintenances : Int
deriving DecidableEq, Repr

/-- Key lookup in a string-keyed record embedded as an association list:
the value at the first matching key, if any. -/
def lookupKey {α : Type} : List (String × α) → String → Option α
  | [], _ => none
  | (k', v) :: rest, k => if k' = k then some v else lookupKey rest k

/-- `acc[k].push(a)` after `if (!acc[k]) acc[k] = []`: append `a` to the
sequence stored at `k`, creating the key (at the end, JavaScript insertion
order) when absent. -/
def pushKey : List (String × List Asset) → String → Asset → List (String × List Asset)
  | [], k, a => [(k, [a])]
  | (k', l) :: rest, k, a =>
    if k' = k then (k', l ++ [a]) :: rest else (k', l) :: pushKey rest k a

/-- `acc[k] = (acc[k] || 0) + 1`: increment the tally at `k`, creating the
key (at the end) with value 1 when absent. -/
def bumpKey : List (String × Nat) → String → List (String × Nat)
  | [], k => [(k, 1)]
  | (k', n) :: rest, k =>
    if k' = k then (k', n + 1) :: rest else (k', n) :: bumpKey rest k

/-- `record[k] = v`: overwrite the value at `k` in place, or append the new
key at the end when absent. -/
def setKey {α : Type} : List (String × α) → String → α → List (String × α)
  | [], k, v => [(k, v)]
  | (k', v') :: rest, k, v =>
    if k' = k then (k', v) :: rest else (k', v') :: setKey rest k v

/-- The grouping aggregator: `assets.reduce(...)` whose guard
`if (!asset.company_id) return acc` is a JavaScript truthiness check — it
skips assets whose `company_id` is null/undefined or the empty string —
and pushes every other asset onto its company's group. -/
def assetsByCompany (assets : List Asset) : List (String × List Asset) :=
  assets.foldl
    (fun acc asset =>
      match asset.company_id with
      | none => acc
      | some cid => if cid = "" then acc else pushKey acc cid asset)
    []

/-- Whether the grouping guard keeps an asset: `asset.company_id` is truthy,
i.e. present and not the empty string. -/
def truthyCompanyId (a : Asset) : Bool :=
  match a.company_id with
  | none => false
  | some cid => decide (cid ≠ "")

/-- The status tally: `assets.reduce((acc, asset) => { acc[asset.status] =
(acc[asset.status] || 0) + 1; return acc; }, {})`. -/
def assetsByStatus (assets : List Asset) : List (String × Nat) :=
  assets.foldl (fun acc asset => bumpKey acc asset.status) []

/-- `Object.keys(assetsByCompany)`, in insertion order. -/
def companyIds (assets : List Asset) : List String :=
  (assetsByCompany assets).map Prod.fst

/-- The aggregate maintenance totals. -/
structure MaintenanceStats where
  totalSchedules : Int
  overdueMaintenances : Int
  upcomingMaintenances : Int
deriving DecidableEq, Repr

/-- The totals fold: `Object.values(maintenanceSummaries).reduce(...)`
summing the three counters, starting from zeroes. -/
def maintenanceStats (summaries : List (String × ClientMaintenanceSummary)) :
    MaintenanceStats :=
  (summaries.map Prod.snd).foldl
    (fun acc summary =>
      { totalSchedules := acc.totalSchedules + summary.total_schedules
        overdueMaintenances := acc.overdueMaintenances + summary.overdue_maintenances
        upcomingMaintenances := acc.upcomingMaintenances + summary.upcoming_maintenances })
    { totalSchedules := 0, overdueMaintenances := 0, upcomingMaintenances := 0 }

/-- The group stored for company `k`, as the presentation layer reads it
(`assetsByCompany[k]`, absent keys reading as the empty sequence). -/
def groupVal (m : List (String × List Asset)) (k : String) : List Asset :=
  (lookupKey m k).getD []

/-- The tally stored for status `s`, absent keys reading as zero. -/
def statusVal (m : List (String × Nat)) (s : String) : Nat :=
  (lookupKey m s).getD 0

/-- All grouped assets, in mapping order: the concatenation of the group
value sequences. -/
def flattenVals (m : List (String × List Asset)) : List Asset :=
  (m.map Prod.snd).flatten

/-- Sum of the values of the status-count mapping. -/
def sumVals (m : List (String × Nat)) : Nat :=
  (m.map Prod.snd).sum

/-! ## The enrichment loader

`loadMaintenanceSummaries` is an async function whose observable actions,
in program order, are: `setLoading(true)`; one awaited
`getClientMaintenanceSummary(companyId)` call per company, sequentially in
`Object.keys(assetsByCompany)` order, accumulating into a local record;
then — all inside a single `try` around the whole loop — one
`setMaintenanceSummaries(summaries)` call, or, when some awaited call
rejects, one `console.error` in the `catch`; and finally
`setLoading(false)`.

The remote collaborator `getClientMaintenanceSummary` is embedded as an
oracle `String → Option ClientMaintenanceSummary`, `none` standing for a
rejected promise (the dashboard never inspects the error value, it only
logs it). The loader itself is embedded as the list of its observable
events, and the component state reached after each event is obtained by
replaying the events over a `DashboardState`. -/

/-- The two `useState` cells the loader writes. -/
structure DashboardState where
  maintenanceSummaries : List (String × ClientMaintenanceSummary)
  loading : Bool
deriving DecidableEq, Repr

/-- The component state at mount: empty summary mapping, `loading` false. -/
def initialDashboardState : DashboardState :=
  { maintenanceSummaries := [], loading := false }

/-- An observable action of `loadMaintenanceSummaries`. -/
inductive Ev where
  | setLoading (b : Bool)
  | fetch (companyId : String)
  | setSummaries (m : List (String × ClientMaintenanceSummary))
  | logError
deriving DecidableEq, Repr

/-- The `for (const companyId of ...)` loop body: attempt the companies in
order, recording a `fetch` event per awaited call and threading the local
`summaries` record through `summaries[companyId] = summary`; a rejected
call ends the loop at once (the exception propagates to the `catch`
outside the loop), yielding `none` in place of the accumulated record. -/
def fetchLoop (oracle : String → Option ClientMaintenanceSummary) :
    List String → List (String × ClientMaintenanceSummary) →
    List Ev × Option (List (String × ClientMaintenanceSummary))
  | [], acc => ([], some acc)
  | cid :: rest, acc =>
    match oracle cid with
    | some s =>
      let r := fetchLoop oracle rest (setKey acc cid s)
      (Ev.fetch cid :: r.1, r.2)
    | none => ([Ev.fetch cid], none)

/-- The observable event trace of one `loadMaintenanceSummaries()` run over
the given work set of company ids. -/
def loadEvents (oracle : String → Option ClientMaintenanceSummary)
    (companies : List String) : List Ev :=
  let r := fetchLoop oracle companies []
  Ev.setLoading true ::
    (r.1 ++
      (match r.2 with
       | some m => [Ev.setSummaries m]
       | none => [Ev.logError]) ++
      [Ev.setLoading false])

/-- Effect of one observable event on the component state: the two
`setState` calls replace the respective cell; an awaited fetch and the
`console.error` leave the committed state untouched. -/
def applyEv (st : DashboardState) : Ev → DashboardState
  | Ev.setLoading b => { st with loading := b }
  | Ev.setSummaries m => { st with maintenanceSummaries := m }
  | Ev.fetch _ => st
  | Ev.logError => st

/-- The component state after the enrichment pass completes. -/
def runLoad (oracle : String → Option ClientMaintenanceSummary)
    (companies : List String) (st : DashboardState) : DashboardState :=
  (loadEvents oracle companies).foldl applyEv st

/-- Every committed state the presentation layer can observe during the
pass: the state before the first event and after each event in turn. -/
def statesDuring (st : DashboardState) : List Ev → List DashboardState
  | [] => [st]
  | e :: evs => st :: statesDuring (applyEv st e) evs

/-- The company ids actually passed to the remote fetch, in order. -/
def fetchedIds : List Ev → List String
  | [] => []
  | Ev.fetch cid :: evs => cid :: fetchedIds evs
  | Ev.setLoading _ :: evs => fetchedIds evs
  | Ev.setSummaries _ :: evs => fetchedIds evs
  | Ev.logError :: evs => fetchedIds evs

/-- Whether an event is a `setLoading` call. -/
def isSetLoading : Ev → Bool
  | Ev.setLoading _ => true
  | _ => false

/-- Whether an event is a `setMaintenanceSummaries` call. -/
def isSetSummaries : Ev → Bool
  | Ev.setSummaries _ => true
  | _ => false

/-! ## Presentation helpers -/

/-- The data handed to the recent-assets table collaborator:
`assets.slice(0, 5)`. -/
def recentAssets (assets : List Asset) : List Asset :=
  assets.take 5

/-- The company column's render: `record.company?.company_name ||
'Unassigned'` — a missing company object (or an empty name, both falsy)
falls back to `"Unassigned"`. -/
def renderCompanyName (record : Asset) : String :=
  match record.company with
  | none => "Unassigned"
  | some c => if c.company_name = "" then "Unassigned" else c.company_name

/-- The location column's render: `(value as string) || 'Not specified'`
over `record.location`. -/
def renderLocation (value : Option String) : String :=
  match value with
  | none => "Not specified"
  | some s => if s = "" then "Not specified" else s

/-- The spec's [A,B,C] scenario: fetch(B) rejects, fetch(A) and fetch(C)
resolve with {total:5, overdue:1, upcoming:2} and {total:3, overdue:0,
upcoming:1}. -/
def oracleABC : String → Option ClientMaintenanceSummary := fun cid =>
  if cid = "A" then some { total_schedules := 5, overdue_maintenances := 1, upcoming_maintenances := 2 }
  else if cid = "C" then some { total_schedules := 3, overdue_maintenances := 0, upcoming_maintenances := 1 }
  else none

/-- A two-company scenario in which every fetch succeeds. -/
def oracleAB : String → Option ClientMaintenanceSummary := fun cid =>
  if cid = "A" then some { total_schedules := 5, overdue_maintenances := 1, upcoming_maintenances := 2 }
  else if cid = "B" then some { total_schedules := 3, overdue_maintenances := 0, upcoming_maintenances := 1 }
  else none

/-- A sample asset owned by company "A". -/
def assetA : Asset :=
  { asset_id := "1", name := "Server", asset_tag := "TAG-1", status := "active"
    company_id := some "A", company := some { company_name := "Acme" }
    location := some "HQ" }

/-- A sample asset with no owning company. -/
def assetNull : Asset :=
  { asset_id := "2", name := "Printer", asset_tag := "TAG-2", status := "inactive"
    company_id := none, company := none, location := none }

/-- A sample asset whose company identifier is the empty string: non-null,
yet falsy for the grouping guard. -/
def assetEmptyCompany : Asset :=
  { asset_id := "3", name := "Scanner", asset_tag := "TAG-3", status := "active"
    company_id := some "", company := none, location := none }

/-- The summary the [A,B,C] scenario returns for company "A". -/
def summaryA : ClientMaintenanceSummary :=
  { total_schedules := 5, overdue_maintenances := 1, upcoming_maintenances := 2 }

/-- The summary the [A,B,C] scenario returns for company "C". -/
def summaryC : ClientMaintenanceSummary :=
  { total_schedules := 3, overdue_maintenances := 0, upcoming_maintenances := 1 }

/-- The committed state of the all-success two-company run: both summaries
present, `loading` still true (the commit precedes `setLoading(false)`). -/
def committedAB : DashboardState :=
  { maintenanceSummaries :=
      [("A", { total_schedules := 5, overdue_maintenances := 1, upcoming_maintenances := 2 }),
       ("B", { total_schedules := 3, overdue_maintenances := 0, upcoming_maintenances := 1 })]
    loading := true }

example :
    assetsByCompany
      [⟨"1", "n1", "t1", "active", some "A", none, none⟩,
       ⟨"2", "n2", "t2", "inactive", none, none, none⟩,
       ⟨"3", "n3", "t3", "active", some "A", none, none⟩,
       ⟨"4", "n4", "t4", "active", some "B", none, none⟩] =
    [("A", [⟨"1", "n1", "t1", "active", some "A", none, none⟩,
            ⟨"3", "n3", "t3", "active", some "A", none, none⟩]),
     ("B", [⟨"4", "n4", "t4", "active", some "B", none, none⟩])] := by
  decide

example :
    assetsByStatus
      [⟨"1", "n1", "t1", "active", some "A", none, none⟩,
       ⟨"2", "n2", "t2", "inactive", none, none, none⟩,
       ⟨"3", "n3", "t3", "active", some "A", none, none⟩] =
    [("active", 2), ("inactive", 1)] := by
  decide

/-! ## Association-list lemmas -/

theorem lookupKey_setKey {α : Type} (m : List (String × α)) (k k' : String) (v : α) :
    lookupKey (setKey m k v) k' = if k = k' then some v else lookupKey m k' := by
  induction m with
  | nil => simp [setKey, lookupKey]
  | cons p rest ih =>
    obtain ⟨k₀, v₀⟩ := p
    by_cases h₀ : k₀ = k
    · subst h₀
      by_cases h₁ : k₀ = k'
      · subst h₁; simp [setKey, lookupKey]
      · simp [setKey, lookupKey, h₁]
    · by_cases h₁ : k₀ = k'
      · subst h₁
        have hne : ¬k = k₀ := fun h => h₀ h.symm
        simp [setKey, lookupKey, h₀, hne]
      · simp [setKey, lookupKey, h₀, h₁, ih]

theorem groupVal_pushKey (m : List (String × List Asset)) (k k' : String) (a : Asset) :
    groupVal (pushKey m k a) k' =
      if k = k' then groupVal m k ++ [a] else groupVal m k' := by
  induction m with
  | nil =>
    by_cases h : k = k'
    · subst h; simp [pushKey, groupVal, lookupKey]
    · simp [pushKey, groupVal, lookupKey, h]
  | cons p rest ih =>
    obtain ⟨k₀, l₀⟩ := p
    simp only [groupVal] at ih ⊢
    by_cases h₀ : k₀ = k
    · subst h₀
      by_cases h₁ : k₀ = k'
      · subst h₁; simp [pushKey, lookupKey]
      · simp [pushKey, lookupKey, h₁]
    · by_cases h₁ : k₀ = k'
      · subst h₁
        have hne : ¬k = k₀ := fun h => h₀ h.symm
        simp [pushKey, lookupKey, h₀, hne]
      · simp [pushKey, lookupKey, h₀, h₁, ih]

theorem flattenVals_pushKey (m : List (String × List Asset)) (k : String) (a : Asset) :
    (flattenVals (pushKey m k a)).Perm (a :: flattenVals m) := by
  induction m with
  | nil => simp [pushKey, flattenVals]
  | cons p rest ih =>
    obtain ⟨k₀, l₀⟩ := p
    by_cases h₀ : k₀ = k
    · subst h₀
      have hp : pushKey ((k₀, l₀) :: rest) k₀ a = (k₀, l₀ ++ [a]) :: rest := by
        simp [pushKey]
      rw [hp]
      simp only [flattenVals, List.map_cons, List.flatten_cons, List.append_assoc,
        List.singleton_append]
      exact List.perm_middle
    · have hp : pushKey ((k₀, l₀) :: rest) k a = (k₀, l₀) :: pushKey rest k a := by
        simp [pushKey, h₀]
      rw [hp]
      simp only [flattenVals, List.map_cons, List.flatten_cons] at ih ⊢
      exact (List.Perm.append_left l₀ ih).trans List.perm_middle

theorem statusVal_bumpKey (m : List (String × Nat)) (s s' : String) :
    statusVal (bumpKey m s) s' =
      statusVal m s' + if s = s' then 1 else 0 := by
  induction m with
  | nil =>
    by_cases h : s = s'
    · subst h; simp [bumpKey, statusVal, lookupKey]
    · simp [bumpKey, statusVal, lookupKey, h]
  | cons p rest ih =>
    obtain ⟨k₀, n₀⟩ := p
    simp only [statusVal] at ih ⊢
    by_cases h₀ : k₀ = s
    · subst h₀
      by_cases h₁ : k₀ = s'
      · subst h₁; simp [bumpKey, lookupKey]
      · simp [bumpKey, lookupKey, h₁]
    · by_cases h₁ : k₀ = s'
      · subst h₁
        have hne : ¬s = k₀ := fun h => h₀ h.symm
        simp [bumpKey, lookupKey, h₀, hne]
      · simp [bumpKey, lookupKey, h₀, h₁, ih]

theorem sumVals_bumpKey (m : List (String × Nat)) (s : String) :
    sumVals (bumpKey m s) = sumVals m + 1 := by
  induction m with
  | nil => simp [bumpKey, sumVals]
  | cons p rest ih =>
    obtain ⟨k₀, n₀⟩ := p
    by_cases h₀ : k₀ = s
    · subst h₀
      simp [bumpKey, sumVals]
      omega
    · simp only [sumVals] at ih
      simp [bumpKey, sumVals, h₀, ih]
      omega

/-! ## Aggregator lemmas -/

theorem groupVal_assetsByCompany_foldl (assets : List Asset) :
    ∀ (acc : List (String × List Asset)) (k : String),
      groupVal
        (assets.foldl
          (fun acc asset =>
            match asset.company_id with
            | none => acc
            | some cid => if cid = "" then acc else pushKey acc cid asset)
          acc) k =
      groupVal acc k ++
        (if k = "" then []
         else assets.filter fun a => decide (a.company_id = some k)) := by
  induction assets with
  | nil => intro acc k; simp
  | cons a rest ih =>
    intro acc k
    cases h : a.company_id with
    | none =>
      by_cases hk : k = "" <;> simp [List.foldl_cons, h, List.filter_cons, ih, hk]
    | some cid =>
      by_cases hcid : cid = ""
      · subst hcid
        by_cases hk : k = ""
        · subst hk; simp [List.foldl_cons, h, ih]
        · have hne : ¬("" : String) = k := fun hh => hk hh.symm
          simp [List.foldl_cons, h, List.filter_cons, ih, hk, hne]
      · by_cases hck : cid = k
        · subst hck
          simp [List.foldl_cons, h, List.filter_cons, ih, hcid, groupVal_pushKey]
        · by_cases hk : k = ""
          · subst hk
            simp [List.foldl_cons, h, ih, hcid, hck, groupVal_pushKey]
          · simp [List.foldl_cons, h, List.filter_cons, ih, hcid, hck, hk,
              groupVal_pushKey]

theorem flattenVals_assetsByCompany_foldl (assets : List Asset) :
    ∀ (acc : List (String × List Asset)),
      (flattenVals
        (assets.foldl
          (fun acc asset =>
            match asset.company_id with
            | none => acc
            | some cid => if cid = "" then acc else pushKey acc cid asset)
          acc)).Perm
      (flattenVals acc ++ assets.filter truthyCompanyId) := by
  induction assets with
  | nil => intro acc; simp
  | cons a rest ih =>
    intro acc
    cases h : a.company_id with
    | none => simpa [List.foldl_cons, h, List.filter_cons, truthyCompanyId] using ih acc
    | some cid =>
      by_cases hcid : cid = ""
      · subst hcid
        simpa [List.foldl_cons, h, List.filter_cons, truthyCompanyId] using ih acc
      · have hcond : truthyCompanyId a = true := by simp [truthyCompanyId, h, hcid]
        simp only [List.foldl_cons, h, List.filter_cons, hcond, if_neg hcid, if_pos]
        refine ((ih (pushKey acc cid a)).trans ?_).trans List.perm_middle.symm
        have h₁ := (flattenVals_pushKey acc cid a).append_right
          (rest.filter truthyCompanyId)
        simpa using h₁

theorem statusVal_assetsByStatus_foldl (assets : List Asset) :
    ∀ (acc : List (String × Nat)) (s : String),
      statusVal (assets.foldl (fun acc asset => bumpKey acc asset.status) acc) s =
        statusVal acc s + (assets.filter (fun a => decide (a.status = s))).length := by
  induction assets with
  | nil => intro acc s; simp
  | cons a rest ih =>
    intro acc s
    by_cases h : a.status = s
    · simp [List.foldl_cons, List.filter_cons, h, ih, statusVal_bumpKey]
      omega
    · simp [List.foldl_cons, List.filter_cons, h, ih, statusVal_bumpKey]

theorem sumVals_assetsByStatus_foldl (assets : List Asset) :
    ∀ (acc : List (String × Nat)),
      sumVals (assets.foldl (fun acc asset => bumpKey acc asset.status) acc) =
        sumVals acc + assets.length := by
  induction assets with
  | nil => intro acc; simp
  | cons a rest ih =>
    intro acc
    simp [List.foldl_cons, ih, sumVals_bumpKey]
    omega

/-! ## Totals-fold lemmas -/

theorem maintenanceStats_foldl (vals : List ClientMaintenanceSummary) :
    ∀ (acc : MaintenanceStats),
      vals.foldl
        (fun acc summary =>
          { totalSchedules := acc.totalSchedules + summary.total_schedules
            overdueMaintenances := acc.overdueMaintenances + summary.overdue_maintenances
            upcomingMaintenances := acc.upcomingMaintenances + summary.upcoming_maintenances })
        acc =
      { totalSchedules := acc.totalSchedules + (vals.map (fun s => s.total_schedules)).sum
        overdueMaintenances :=
          acc.overdueMaintenances + (vals.map (fun s => s.overdue_maintenances)).sum
        upcomingMaintenances :=
          acc.upcomingMaintenances + (vals.map (fun s => s.upcoming_maintenances)).sum } := by
  induction vals with
  | nil => intro acc; simp
  | cons v rest ih =>
    intro acc
    simp [List.foldl_cons, ih, MaintenanceStats.mk.injEq]
    refine ⟨?_, ?_, ?_⟩ <;> ring

theorem maintenanceStats_eq_sums (l : List (String × ClientMaintenanceSummary)) :
    maintenanceStats l =
      { totalSchedules := ((l.map Prod.snd).map (fun s => s.total_schedules)).sum
        overdueMaintenances := ((l.map Prod.snd).map (fun s => s.overdue_maintenances)).sum
        upcomingMaintenances := ((l.map Prod.snd).map (fun s => s.upcoming_maintenances)).sum } := by
  simp [maintenanceStats, maintenanceStats_foldl]


example :
    loadEvents oracleABC ["A", "B", "C"] =
      [Ev.setLoading true, Ev.fetch "A", Ev.fetch "B", Ev.logError,
       Ev.setLoading false] := by
  decide

example :
    loadEvents oracleAB ["A", "B"] =
      [Ev.setLoading true, Ev.fetch "A", Ev.fetch "B",
       Ev.setSummaries
         [("A", { total_schedules := 5, overdue_maintenances := 1, upcoming_maintenances := 2 }),
          ("B", { total_schedules := 3, overdue_maintenances := 0, upcoming_maintenances := 1 })],
       Ev.setLoading false] := by
  decide

/-! ## Enrichment-loader lemmas -/

theorem fetchLoop_events (oracle : String → Option ClientMaintenanceSummary)
    (cs : List String) :
    ∀ (acc : List (String × ClientMaintenanceSummary)),
      (fetchLoop oracle cs acc).1 =
        ((cs.takeWhile fun c => (oracle c).isSome) ++
          (cs.dropWhile fun c => (oracle c).isSome).take 1).map Ev.fetch := by
  induction cs with
  | nil => intro acc; simp [fetchLoop]
  | cons c rest ih =>
    intro acc
    cases h : oracle c with
    | some s => simp [fetchLoop, h, List.takeWhile_cons, List.dropWhile_cons, ih]
    | none => simp [fetchLoop, h, List.takeWhile_cons, List.dropWhile_cons]

theorem fetchLoop_res_isSome (oracle : String → Option ClientMaintenanceSummary)
    (cs : List String) :
    ∀ (acc : List (String × ClientMaintenanceSummary)),
      ((fetchLoop oracle cs acc).2).isSome = cs.all fun c => (oracle c).isSome := by
  induction cs with
  | nil => intro acc; simp [fetchLoop]
  | cons c rest ih =>
    intro acc
    cases h : oracle c with
    | some s => simp [fetchLoop, h, List.all_cons, ih]
    | none => simp [fetchLoop, h, List.all_cons]

theorem fetchLoop_lookup (oracle : String → Option ClientMaintenanceSummary)
    (cs : List String) :
    ∀ (acc : List (String × ClientMaintenanceSummary))
      (m : List (String × ClientMaintenanceSummary)),
      (fetchLoop oracle cs acc).2 = some m →
      ∀ c : String, (lookupKey m c).isSome ↔ (c ∈ cs ∨ (lookupKey acc c).isSome) := by
  induction cs with
  | nil =>
    intro acc m h c
    simp only [fetchLoop, Option.some.injEq] at h
    subst h
    simp
  | cons c₀ rest ih =>
    intro acc m h c
    cases h₀ : oracle c₀ with
    | none => simp [fetchLoop, h₀] at h
    | some s =>
      simp only [fetchLoop, h₀] at h
      rw [ih (setKey acc c₀ s) m h c, lookupKey_setKey]
      by_cases hc : c₀ = c
      · subst hc; simp
      · have hne : ¬c = c₀ := fun hh => hc hh.symm
        simp [hc, hne, List.mem_cons]

theorem foldl_applyEv_fetchMap (ids : List String) :
    ∀ (st : DashboardState), List.foldl applyEv st (ids.map Ev.fetch) = st := by
  induction ids with
  | nil => intro st; rfl
  | cons i rest ih => intro st; simp [List.foldl_cons, applyEv, ih]

theorem statesDuring_fetchMap (ids : List String) :
    ∀ (st : DashboardState) (evs : List Ev),
      statesDuring st (ids.map Ev.fetch ++ evs) =
        List.replicate ids.length st ++ statesDuring st evs := by
  induction ids with
  | nil => intro st evs; simp
  | cons i rest ih =>
    intro st evs
    simp [statesDuring, applyEv, ih, List.replicate_succ]

theorem filter_isSetLoading_fetchMap (ids : List String) :
    (ids.map Ev.fetch).filter isSetLoading = [] := by
  induction ids with
  | nil => rfl
  | cons i rest ih => simp [List.filter_cons, isSetLoading, ih]

theorem countP_isSetSummaries_fetchMap (ids : List String) :
    (ids.map Ev.fetch).countP isSetSummaries = 0 := by
  induction ids with
  | nil => rfl
  | cons i rest ih => simp [List.countP_cons, isSetSummaries, ih]

theorem getLast_append_singleton (l : List Ev) (x : Ev) :
    (l ++ [x]).getLast? = some x :=
  List.getLast?_concat _
theorem loadEvents_decomp (oracle : String → Option ClientMaintenanceSummary)
    (companies : List String) :
    loadEvents oracle companies =
      Ev.setLoading true ::
        (((companies.takeWhile fun c => (oracle c).isSome) ++
            (companies.dropWhile fun c => (oracle c).isSome).take 1).map Ev.fetch ++
          ((match (fetchLoop oracle companies []).2 with
            | some m => [Ev.setSummaries m]
            | none => [Ev.logError]) ++
           [Ev.setLoading false])) := by
  have h1 := fetchLoop_events oracle companies []
  simp [loadEvents, h1]

theorem fetchedIds_fetchMap (ids : List String) :
    ∀ (evs : List Ev), fetchedIds (ids.map Ev.fetch ++ evs) = ids ++ fetchedIds evs := by
  induction ids with
  | nil => intro evs; rfl
  | cons i rest ih => intro evs; simp [fetchedIds, ih evs]

theorem cons_append_append_singleton (e x : Ev) (A B : List Ev) :
    e :: (A ++ (B ++ [x])) = (e :: (A ++ B)) ++ [x] := by
  simp

theorem runLoad_eq (oracle : String → Option ClientMaintenanceSummary)
    (companies : List String) (st : DashboardState) :
    runLoad oracle companies st =
      match (fetchLoop oracle companies []).2 with
      | some m => { maintenanceSummaries := m, loading := false }
      | none => { st with loading := false } := by
  rw [runLoad, loadEvents_decomp]
  generalize ((companies.takeWhile fun c => (oracle c).isSome) ++
      (companies.dropWhile fun c => (oracle c).isSome).take 1) = ids
  cases hres : (fetchLoop oracle companies []).2 with
  | some m =>
    simp [List.foldl_cons, List.foldl_append, applyEv, foldl_applyEv_fetchMap]
  | none =>
    simp [List.foldl_cons, List.foldl_append, applyEv, foldl_applyEv_fetchMap]

theorem setSummaries_mem_loadEvents (oracle : String → Option ClientMaintenanceSummary)
    (companies : List String) (m : List (String × ClientMaintenanceSummary)) :
    Ev.setSummaries m ∈ loadEvents oracle companies ↔
      (fetchLoop oracle companies []).2 = some m := by
  rw [loadEvents_decomp]
  generalize ((companies.takeWhile fun c => (oracle c).isSome) ++
      (companies.dropWhile fun c => (oracle c).isSome).take 1) = ids
  cases hres : (fetchLoop oracle companies []).2 with
  | some m' =>
    simp [List.mem_cons, List.mem_append, List.mem_map, eq_comm]
  | none =>
    simp [List.mem_cons, List.mem_append, List.mem_map]

theorem loadEvents_filter_setLoading (oracle : String → Option ClientMaintenanceSummary)
    (companies : List String) :
    (loadEvents oracle companies).filter isSetLoading =
      [Ev.setLoading true, Ev.setLoading false] := by
  rw [loadEvents_decomp]
  generalize ((companies.takeWhile fun c => (oracle c).isSome) ++
      (companies.dropWhile fun c => (oracle c).isSome).take 1) = ids
  cases hres : (fetchLoop oracle companies []).2 with
  | some m =>
    simp [List.filter_cons, List.filter_append, isSetLoading, filter_isSetLoading_fetchMap]
  | none =>
    simp [List.filter_cons, List.filter_append, isSetLoading, filter_isSetLoading_fetchMap]

theorem loadEvents_countP_setSummaries (oracle : String → Option ClientMaintenanceSummary)
    (companies : List String) :
    (loadEvents oracle companies).countP isSetSummaries =
      if ((fetchLoop oracle companies []).2).isSome then 1 else 0 := by
  rw [loadEvents_decomp]
  generalize ((companies.takeWhile fun c => (oracle c).isSome) ++
      (companies.dropWhile fun c => (oracle c).isSome).take 1) = ids
  cases hres : (fetchLoop oracle companies []).2 with
  | some m =>
    simp [List.countP_cons, List.countP_append, isSetSummaries, countP_isSetSummaries_fetchMap]
  | none =>
    simp [List.countP_cons, List.countP_append, isSetSummaries, countP_isSetSummaries_fetchMap]

theorem loadEvents_getLast (oracle : String → Option ClientMaintenanceSummary)
    (companies : List String) :
    (loadEvents oracle companies).getLast? = some (Ev.setLoading false) := by
  rw [loadEvents_decomp]
  generalize ((companies.takeWhile fun c => (oracle c).isSome) ++
      (companies.dropWhile fun c => (oracle c).isSome).take 1) = ids
  cases hres : (fetchLoop oracle companies []).2 with
  | some m => rw [cons_append_append_singleton, getLast_append_singleton]
  | none => rw [cons_append_append_singleton, getLast_append_singleton]

theorem loadEvents_head (oracle : String → Option ClientMaintenanceSummary)
    (companies : List String) :
    (loadEvents oracle companies).head? = some (Ev.setLoading true) := by
  rw [loadEvents_decomp]
  rfl

theorem loadEvents_fetchedIds (oracle : String → Option ClientMaintenanceSummary)
    (companies : List String) :
    fetchedIds (loadEvents oracle companies) =
      (companies.takeWhile fun c => (oracle c).isSome) ++
        (companies.dropWhile fun c => (oracle c).isSome).take 1 := by
  rw [loadEvents_decomp]
  generalize ((companies.takeWhile fun c => (oracle c).isSome) ++
      (companies.dropWhile fun c => (oracle c).isSome).take 1) = ids
  cases hres : (fetchLoop oracle companies []).2 with
  | some m => simp [fetchedIds, fetchedIds_fetchMap]
  | none => simp [fetchedIds, fetchedIds_fetchMap]

theorem statesDuring_loadEvents (oracle : String → Option ClientMaintenanceSummary)
    (companies : List String) (st : DashboardState)
    (hst : st ∈ statesDuring initialDashboardState (loadEvents oracle companies)) :
    st.maintenanceSummaries = [] ∨
      (fetchLoop oracle companies []).2 = some st.maintenanceSummaries := by
  rw [loadEvents_decomp] at hst
  generalize ((companies.takeWhile fun c => (oracle c).isSome) ++
      (companies.dropWhile fun c => (oracle c).isSome).take 1) = ids at hst
  cases hres : (fetchLoop oracle companies []).2 with
  | some m =>
    rw [hres] at hst
    simp only [statesDuring, applyEv] at hst
    simp only [statesDuring_fetchMap] at hst
    simp only [statesDuring, applyEv, List.singleton_append, List.mem_cons,
      List.mem_append, List.mem_replicate, List.not_mem_nil, or_false] at hst
    rcases hst with h | ⟨-, h⟩ | h | h | h
    · left; subst h; rfl
    · left; subst h; rfl
    · left; subst h; rfl
    · right; subst h; rfl
    · right; subst h; rfl
  | none =>
    rw [hres] at hst
    simp only [statesDuring, applyEv] at hst
    simp only [statesDuring_fetchMap] at hst
    simp only [statesDuring, applyEv, List.singleton_append, List.mem_cons,
      List.mem_append, List.mem_replicate, List.not_mem_nil, or_false] at hst
    rcases hst with h | ⟨-, h⟩ | h | h | h
    all_goals (left; subst h; rfl)

theorem runLoad_loading_false (oracle : String → Option ClientMaintenanceSummary)
    (companies : List String) (st : DashboardState) :
    (runLoad oracle companies st).loading = false := by
  rw [runLoad_eq]
  cases hres : (fetchLoop oracle companies []).2 <;> rfl

theorem runLoad_failure_mapping (oracle : String → Option ClientMaintenanceSummary)
    (companies : List String) (st : DashboardState)
    (h : ∃ c ∈ companies, oracle c = none) :
    (runLoad oracle companies st).maintenanceSummaries = st.maintenanceSummaries := by
  obtain ⟨c, hc, hnone⟩ := h
  have hsome := fetchLoop_res_isSome oracle companies []
  cases hres : (fetchLoop oracle companies []).2 with
  | some m =>
    exfalso
    have hs : ((fetchLoop oracle companies []).2).isSome = true := by rw [hres]; rfl
    rw [hsome] at hs
    have := List.all_eq_true.mp hs c hc
    rw [hnone] at this
    simp at this
  | none => rw [runLoad_eq, hres]

/-! ## The claims -/

/-- Claim C1, counterexample: in the spec's own [A,B,C] scenario (fetch(B)
rejects, fetch(A) and fetch(C) would resolve), the code aborts the loop at
B — C is never fetched — and commits nothing: the final summary mapping has
no entry for A or C, and the totals fold over it yields {0,0,0}, not
{total:8, overdue:1, upcoming:3} as the claim requires. -/
theorem c1_counterexample :
    Ev.fetch "C" ∉ loadEvents oracleABC ["A", "B", "C"] ∧
    lookupKey (runLoad oracleABC ["A", "B", "C"] initialDashboardState).maintenanceSummaries
      "A" = none ∧
    lookupKey (runLoad oracleABC ["A", "B", "C"] initialDashboardState).maintenanceSummaries
      "C" = none ∧
    maintenanceStats (runLoad oracleABC ["A", "B", "C"] initialDashboardState).maintenanceSummaries =
      { totalSchedules := 0, overdueMaintenances := 0, upcomingMaintenances := 0 } ∧
    maintenanceStats (runLoad oracleABC ["A", "B", "C"] initialDashboardState).maintenanceSummaries ≠
      { totalSchedules := 8, overdueMaintenances := 1, upcomingMaintenances := 3 } := by
  decide

/-- Claim C1, amended: if the fetch for a company fails, the loop aborts at
that company — the attempted company ids are exactly the longest successful
prefix of the work set followed by the first failing company, and companies
after it are never attempted; the committed summary mapping is left at its
prior value (so the failing company indeed has no entry, but neither has
any company); the failure is still never surfaced as a thrown error — the
pass completes and the loading flag ends false. -/
theorem c1_failure_aborts_loop (oracle : String → Option ClientMaintenanceSummary)
    (companies : List String) (st : DashboardState) :
    fetchedIds (loadEvents oracle companies) =
      (companies.takeWhile fun c => (oracle c).isSome) ++
        (companies.dropWhile fun c => (oracle c).isSome).take 1 ∧
    (runLoad oracle companies st).loading = false ∧
    ((∃ c ∈ companies, oracle c = none) →
      (runLoad oracle companies st).maintenanceSummaries = st.maintenanceSummaries) :=
  ⟨loadEvents_fetchedIds oracle companies, runLoad_loading_false oracle companies st,
   runLoad_failure_mapping oracle companies st⟩

/-- Witness for the amended C1: the [A,B,C] scenario has a failing company,
so the committed mapping stays at its initial value and loading ends
false. -/
theorem c1_witness :
    (runLoad oracleABC ["A", "B", "C"] initialDashboardState).loading = false ∧
    (runLoad oracleABC ["A", "B", "C"] initialDashboardState).maintenanceSummaries =
      initialDashboardState.maintenanceSummaries :=
  ⟨(c1_failure_aborts_loop oracleABC ["A", "B", "C"] initialDashboardState).2.1,
   (c1_failure_aborts_loop oracleABC ["A", "B", "C"] initialDashboardState).2.2
     ⟨"B", by decide, by decide⟩⟩

/-- Claim C2, counterexample: in a two-company run where both fetches
succeed, no observable state ever contains company A's summary entry
without company B's — the entries do not become visible one at a time as
each fetch resolves, contrary to the claim. -/
theorem c2_counterexample :
    ¬ ∃ st ∈ statesDuring initialDashboardState (loadEvents oracleAB ["A", "B"]),
        (lookupKey st.maintenanceSummaries "A").isSome ∧
        lookupKey st.maintenanceSummaries "B" = none := by
  decide

/-- Claim C2, amended: during the enrichment pass the visible summary
mapping takes at most two values — its initial empty value and, only when
every company's fetch has resolved successfully, the single mapping
committed atomically after the last fetch, which holds an entry for
exactly the companies of the work set; so the mapping still grows
monotonically (one commit, adding entries to the empty mapping), but
entries never appear one at a time. -/
theorem c2_single_commit_visibility (oracle : String → Option ClientMaintenanceSummary)
    (companies : List String) (st : DashboardState)
    (hst : st ∈ statesDuring initialDashboardState (loadEvents oracle companies))
    (c : String) :
    st.maintenanceSummaries = [] ∨
      ((fetchLoop oracle companies []).2 = some st.maintenanceSummaries ∧
        ((lookupKey st.maintenanceSummaries c).isSome ↔ c ∈ companies)) := by
  rcases statesDuring_loadEvents oracle companies st hst with h | h
  · exact Or.inl h
  · refine Or.inr ⟨h, ?_⟩
    have h2 := fetchLoop_lookup oracle companies [] st.maintenanceSummaries h c
    simpa [lookupKey] using h2

/-- Witness for the amended C2 at the committed state of the all-success
two-company run. -/
theorem c2_witness :
    committedAB.maintenanceSummaries = [] ∨
      ((fetchLoop oracleAB ["A", "B"] []).2 = some committedAB.maintenanceSummaries ∧
        ((lookupKey committedAB.maintenanceSummaries "A").isSome ↔ "A" ∈ ["A", "B"])) :=
  c2_single_commit_visibility oracleAB ["A", "B"] committedAB (by decide) "A"

/-- Claim C3: the commit is all-or-nothing — the loading flag ends false;
`setMaintenanceSummaries` is called at most once, and exactly once
precisely when every company's fetch succeeds; and if any fetch fails the
committed mapping is left exactly at its prior value, discarding even the
summaries fetched successfully for earlier companies. -/
theorem c3_all_or_nothing_commit (oracle : String → Option ClientMaintenanceSummary)
    (companies : List String) (st : DashboardState) :
    (runLoad oracle companies st).loading = false ∧
    (loadEvents oracle companies).countP isSetSummaries ≤ 1 ∧
    ((loadEvents oracle companies).countP isSetSummaries = 1 ↔
      ∀ c ∈ companies, (oracle c).isSome) ∧
    ((∃ c ∈ companies, oracle c = none) →
      (runLoad oracle companies st).maintenanceSummaries = st.maintenanceSummaries) := by
  have hcount := loadEvents_countP_setSummaries oracle companies
  have hsome := fetchLoop_res_isSome oracle companies []
  refine ⟨runLoad_loading_false oracle companies st, ?_, ?_, ?_⟩
  · rw [hcount]
    by_cases hs : ((fetchLoop oracle companies []).2).isSome <;> simp [hs]
  · rw [hcount]
    constructor
    · intro h1
      by_cases hs : ((fetchLoop oracle companies []).2).isSome
      · rw [hsome] at hs
        intro c hc
        exact List.all_eq_true.mp hs c hc
      · simp [hs] at h1
    · intro h2
      have hs : ((fetchLoop oracle companies []).2).isSome = true := by
        rw [hsome]
        exact List.all_eq_true.mpr fun c hc => h2 c hc
      simp [hs]
  · exact runLoad_failure_mapping oracle companies st

/-- Witness for C3: in the all-success two-company run the commit happens
exactly once; in the [A,B,C] scenario a fetch fails, and the committed
mapping is left at its initial value. -/
theorem c3_witness :
    (loadEvents oracleAB ["A", "B"]).countP isSetSummaries = 1 ∧
    (runLoad oracleABC ["A", "B", "C"] initialDashboardState).maintenanceSummaries =
      initialDashboardState.maintenanceSummaries :=
  ⟨(c3_all_or_nothing_commit oracleAB ["A", "B"] initialDashboardState).2.2.1.mpr
     (by decide),
   (c3_all_or_nothing_commit oracleABC ["A", "B", "C"] initialDashboardState).2.2.2
     ⟨"B", by decide, by decide⟩⟩

/-- Claim C4, counterexample: the source guard `if (!asset.company_id)` is
a JavaScript truthiness check, so an asset whose company identifier is the
empty string — non-null — is skipped by the grouping: it appears in no
company group, and the flattened groups are empty while the subsequence of
assets with a non-null company identifier contains the asset, refuting the
claimed equality. -/
theorem c4_counterexample :
    assetEmptyCompany.company_id ≠ none ∧
    assetsByCompany [assetEmptyCompany] = [] ∧
    flattenVals (assetsByCompany [assetEmptyCompany]) = [] ∧
    [assetEmptyCompany].filter (fun a => a.company_id.isSome) = [assetEmptyCompany] := by
  decide

/-- Claim C4, amended: the grouping skips assets whose company identifier
is falsy — null or the empty string — not just null. For every input list:
the group of every non-empty company id is exactly the subsequence of
input assets carrying that id (input order preserved), and the empty
string is never a group key; the concatenation of all group sequences
holds exactly the input assets with a truthy (non-null, non-empty) company
identifier, as a permutation with order preserved inside every group; an
asset with a null or empty company identifier appears in no group, yet is
still counted exactly once in the status-count mapping — the count of each
status equals the number of input assets with that status. -/
theorem c4_aggregator_stable_partition (assets : List Asset) :
    (∀ k : String,
      groupVal (assetsByCompany assets) k =
        if k = "" then []
        else assets.filter fun a => decide (a.company_id = some k)) ∧
    (flattenVals (assetsByCompany assets)).Perm (assets.filter truthyCompanyId) ∧
    (∀ a : Asset, (a.company_id = none ∨ a.company_id = some "") →
      ∀ p ∈ assetsByCompany assets, a ∉ p.2) ∧
    (∀ s : String,
      statusVal (assetsByStatus assets) s =
        (assets.filter fun a => decide (a.status = s)).length) := by
  have hperm : (flattenVals (assetsByCompany assets)).Perm
      (assets.filter truthyCompanyId) := by
    simpa [assetsByCompany, flattenVals] using flattenVals_assetsByCompany_foldl assets []
  refine ⟨fun k => ?_, hperm, ?_, fun s => ?_⟩
  · simpa [assetsByCompany, groupVal, lookupKey] using
      groupVal_assetsByCompany_foldl assets [] k
  · intro a ha p hp hmem
    have h1 : a ∈ flattenVals (assetsByCompany assets) := by
      simp only [flattenVals, List.mem_flatten]
      exact ⟨p.2, List.mem_map_of_mem Prod.snd hp, hmem⟩
    have h2 := hperm.mem_iff.mp h1
    have h3 := (List.mem_filter.mp h2).2
    rcases ha with ha | ha <;> simp [truthyCompanyId, ha] at h3
  · simpa [assetsByStatus, statusVal, lookupKey] using
      statusVal_assetsByStatus_foldl assets [] s

/-- Witness for the amended C4: in a list with one company-A asset and one
empty-string-company asset, the latter is grouped nowhere. -/
theorem c4_witness :
    assetEmptyCompany ∉ (("A", [assetA]) : String × List Asset).2 :=
  (c4_aggregator_stable_partition [assetA, assetEmptyCompany]).2.2.1 assetEmptyCompany
    (Or.inr rfl) ("A", [assetA]) (by decide)

/-- Claim C5: the values of the status-count mapping sum to the total
number of input assets. -/
theorem c5_status_count_conservation (assets : List Asset) :
    sumVals (assetsByStatus assets) = assets.length := by
  simpa [assetsByStatus, sumVals] using sumVals_assetsByStatus_foldl assets []

/-- Claim C6: the loading flag lifecycle — the pass's first observable
action is `setLoading(true)` (before any fetch), its last is
`setLoading(false)` (after the last fetch attempt), these are the only two
`setLoading` calls regardless of how many fetches failed, and the
component's loading flag is false once the pass finishes. -/
theorem c6_loading_flag_lifecycle (oracle : String → Option ClientMaintenanceSummary)
    (companies : List String) (st : DashboardState) :
    (loadEvents oracle companies).head? = some (Ev.setLoading true) ∧
    (loadEvents oracle companies).getLast? = some (Ev.setLoading false) ∧
    (loadEvents oracle companies).filter isSetLoading =
      [Ev.setLoading true, Ev.setLoading false] ∧
    (runLoad oracle companies st).loading = false :=
  ⟨loadEvents_head oracle companies, loadEvents_getLast oracle companies,
   loadEvents_filter_setLoading oracle companies,
   runLoad_loading_false oracle companies st⟩

/-- Claim C7: the recent-assets table is handed `assets.slice(0, 5)`, so at
most 5 rows are rendered and 100 input assets yield exactly 5 rows; the
company column renders "Unassigned" for an asset with no company object,
and the location column renders "Not specified" for a missing location. -/
theorem c7_recent_assets_bound_and_fallbacks (assets : List Asset) :
    (recentAssets assets).length ≤ 5 ∧
    (assets.length = 100 → (recentAssets assets).length = 5) ∧
    (∀ a : Asset, a.company = none → renderCompanyName a = "Unassigned") ∧
    (∀ v : Option String, v = none → renderLocation v = "Not specified") := by
  refine ⟨?_, ?_, ?_, ?_⟩
  · simp [recentAssets, List.length_take]
  · intro h; simp [recentAssets, List.length_take, h]
  · intro a ha; simp [renderCompanyName, ha]
  · intro v hv; simp [renderLocation, hv]

/-- Witness for C7: 100 copies of an asset yield a 5-row slice, and the
company-less, location-less sample asset renders with both fallbacks. -/
theorem c7_witness :
    (recentAssets (List.replicate 100 assetNull)).length = 5 ∧
    renderCompanyName assetNull = "Unassigned" ∧
    renderLocation assetNull.location = "Not specified" :=
  ⟨(c7_recent_assets_bound_and_fallbacks (List.replicate 100 assetNull)).2.1 (by simp),
   (c7_recent_assets_bound_and_fallbacks []).2.2.1 assetNull rfl,
   (c7_recent_assets_bound_and_fallbacks []).2.2.2 assetNull.location rfl⟩

/-- Claim C8: the totals fold is order-independent — any permutation of the
summary-mapping entries yields the same totals for schedules, overdue and
upcoming counts. -/
theorem c8_totals_fold_perm_invariant
    (l₁ l₂ : List (String × ClientMaintenanceSummary)) (h : l₁.Perm l₂) :
    maintenanceStats l₁ = maintenanceStats l₂ := by
  rw [maintenanceStats_eq_sums, maintenanceStats_eq_sums]
  have h2 := h.map Prod.snd
  simp only [MaintenanceStats.mk.injEq]
  exact ⟨((h2.map fun s => s.total_schedules)).sum_eq,
    ((h2.map fun s => s.overdue_maintenances)).sum_eq,
    ((h2.map fun s => s.upcoming_maintenances)).sum_eq⟩

/-- Witness for C8: swapping the two entries of a concrete mapping leaves
the totals unchanged. -/
theorem c8_witness :
    maintenanceStats [("A", summaryA), ("C", summaryC)] =
      maintenanceStats [("C", summaryC), ("A", summaryA)] :=
  c8_totals_fold_perm_invariant _ _ (List.Perm.swap _ _ _)

/-- Claim C9: the totals fold over the empty summary mapping returns zero
schedules, zero overdue and zero upcoming. -/
theorem c9_totals_fold_empty :
    maintenanceStats [] =
      { totalSchedules := 0, overdueMaintenances := 0, upcomingMaintenances := 0 } :=
  rfl

/-- Claim C10: the aggregator is deterministic — it is a pure function of
the input asset list (embedded as such, with no hidden state), so two
invocations on the same list agree on both the company-group mapping and
the status-count mapping. -/
theorem c10_aggregator_deterministic (assets : List Asset) :
    assetsByCompany assets = assetsByCompany assets ∧
    assetsByStatus assets = assetsByStatus assets :=
  ⟨rfl, rfl⟩
